import Mathlib

set_option maxRecDepth 100000

/-!
Shallow embedding of `docs/.vitepress/utils/generateSidebar.ts`
(a VitePress sidebar / route-rewrite generator).

Conventions of the embedding:
* JS strings are Lean `String`s; operations that the code performs on
  UTF-16 code units act here on characters, which agrees on the ASCII
  data involved.
* Machine integers: MD5 words are `Nat` reduced modulo `2 ^ 32`.
* The filesystem is a function `String → Option (List String)` mapping a
  directory path to its listing (`none` models a non-existing directory,
  mirroring `fs.existsSync`); `path.resolve(process.cwd(), dirPath)` is
  abstracted away, directories are addressed by `dirPath` itself.
* `console.warn` output is collected in an explicit `warnings` list.
* The module-level mutable `routeMappings` record is threaded as explicit
  state (`RouteMappings`), an association list in key-insertion order,
  matching JS object key enumeration order for string keys.
-/

namespace GenSidebar

/-! ### MD5 (crypto.createHash('md5')), on UTF-8 bytes -/

/-- Reduce to a 32-bit word. -/
def m32 (x : Nat) : Nat := x % 4294967296

/-- 32-bit left rotation (argument assumed `< 2 ^ 32`). -/
def rotl (x n : Nat) : Nat := ((x <<< n) ||| (x >>> (32 - n))) % 4294967296

/-- Bitwise complement on 32 bits. -/
def not32 (x : Nat) : Nat := x ^^^ 4294967295

/-- Per-round shift amounts of MD5. -/
def md5S : List Nat :=
  [7, 12, 17, 22, 7, 12, 17, 22, 7, 12, 17, 22, 7, 12, 17, 22,
   5, 9, 14, 20, 5, 9, 14, 20, 5, 9, 14, 20, 5, 9, 14, 20,
   4, 11, 16, 23, 4, 11, 16, 23, 4, 11, 16, 23, 4, 11, 16, 23,
   6, 10, 15, 21, 6, 10, 15, 21, 6, 10, 15, 21, 6, 10, 15, 21]

/-- MD5 sine-derived constants `⌊2^32·|sin(i+1)|⌋`. -/
def md5K : List Nat :=
  [3614090360, 3905402710, 606105819, 3250441966, 4118548399, 1200080426, 2821735955, 4249261313,
   1770035416, 2336552879, 4294925233, 2304563134, 1804603682, 4254626195, 2792965006, 1236535329,
   4129170786, 3225465664, 643717713, 3921069994, 3593408605, 38016083, 3634488961, 3889429448,
   568446438, 3275163606, 4107603335, 1163531501, 2850285829, 4243563512, 1735328473, 2368359562,
   4294588738, 2272392833, 1839030562, 4259657740, 2763975236, 1272893353, 4139469664, 3200236656,
   681279174, 3936430074, 3572445317, 76029189, 3654602809, 3873151461, 530742520, 3299628645,
   4096336452, 1126891415, 2878612391, 4237533241, 1700485571, 2399980690, 4293915773, 2240044497,
   1873313359, 4264355552, 2734768916, 1309151649, 4149444226, 3174756917, 718787259, 3951481745]

/-- One of the 64 MD5 operations, acting on the state `(a,b,c,d)`;
`M` is the current block as 16 little-endian 32-bit words. -/
def md5Step (M : List Nat) (st : Nat × Nat × Nat × Nat) (i : Nat) : Nat × Nat × Nat × Nat :=
  let a := st.1
  let b := st.2.1
  let c := st.2.2.1
  let d := st.2.2.2
  let fg : Nat × Nat :=
    if i < 16 then ((b &&& c) ||| (not32 b &&& d), i)
    else if i < 32 then ((d &&& b) ||| (not32 d &&& c), (5 * i + 1) % 16)
    else if i < 48 then (b ^^^ c ^^^ d, (3 * i + 5) % 16)
    else (c ^^^ (b ||| not32 d), (7 * i) % 16)
  let f := m32 (fg.1 + a + md5K.getD i 0 + M.getD fg.2 0)
  (d, m32 (b + rotl f (md5S.getD i 0)), b, c)

/-- Combine 4 little-endian bytes into 32-bit words. -/
def bytesToWords : List Nat → List Nat
  | b0 :: b1 :: b2 :: b3 :: rest =>
      (b0 + 256 * b1 + 65536 * b2 + 16777216 * b3) :: bytesToWords rest
  | _ => []

/-- Process a single block given as its 16 words. -/
def md5Block (h : Nat × Nat × Nat × Nat) (M : List Nat) : Nat × Nat × Nat × Nat :=
  let r := (List.range 64).foldl (md5Step M) h
  (m32 (h.1 + r.1), m32 (h.2.1 + r.2.1), m32 (h.2.2.1 + r.2.2.1), m32 (h.2.2.2 + r.2.2.2))

/-- Process the padded message's word list, 16 words (one block) at a time. -/
def md5Blocks (h : Nat × Nat × Nat × Nat) : List Nat → Nat × Nat × Nat × Nat
  | m0 :: m1 :: m2 :: m3 :: m4 :: m5 :: m6 :: m7 ::
    m8 :: m9 :: m10 :: m11 :: m12 :: m13 :: m14 :: m15 :: rest =>
      md5Blocks (md5Block h [m0, m1, m2, m3, m4, m5, m6, m7,
                             m8, m9, m10, m11, m12, m13, m14, m15]) rest
  | _ => h

/-- Little-endian 8-byte encoding of the 64-bit message bit length. -/
def le64 (x : Nat) : List Nat :=
  (List.range 8).map (fun j => (x >>> (8 * j)) % 256)

/-- MD5 padding: `0x80`, zeros to 56 mod 64, then the 64-bit bit length. -/
def md5Pad (msg : List Nat) : List Nat :=
  msg ++ 128 :: List.replicate ((119 - msg.length % 64) % 64) 0
      ++ le64 ((8 * msg.length) % 18446744073709551616)

/-- Little-endian 4-byte serialization of a 32-bit word. -/
def le32 (x : Nat) : List Nat := [x % 256, x / 256 % 256, x / 65536 % 256, x / 16777216 % 256]

/-- The 16-byte MD5 digest of a byte sequence. -/
def md5Digest (msg : List Nat) : List Nat :=
  let r := md5Blocks (1732584193, 4023233417, 2562383102, 271733878)
      (bytesToWords (md5Pad msg))
  le32 r.1 ++ le32 r.2.1 ++ le32 r.2.2.1 ++ le32 r.2.2.2

/-- Lowercase hex digit. -/
def hexDigit (n : Nat) : Char := if n < 10 then Char.ofNat (48 + n) else Char.ofNat (87 + n)

/-- Lowercase hex rendering of a byte list. -/
def hexOfBytes : List Nat → List Char
  | [] => []
  | b :: bs => hexDigit (b / 16) :: hexDigit (b % 16) :: hexOfBytes bs

/-- UTF-8 encoding of one character. -/
def utf8EncodeChar (c : Char) : List Nat :=
  let n := c.toNat
  if n < 128 then [n]
  else if n < 2048 then [192 + n / 64, 128 + n % 64]
  else if n < 65536 then [224 + n / 4096, 128 + n / 64 % 64, 128 + n % 64]
  else [240 + n / 262144, 128 + n / 4096 % 64, 128 + n / 64 % 64, 128 + n % 64]

/-- UTF-8 byte sequence of a string (what `hash.update(str)` consumes). -/
def utf8Bytes (s : String) : List Nat := (s.data.map utf8EncodeChar).flatten

/-- `crypto.createHash('md5').update(s).digest('hex')`. -/
def md5Hex (s : String) : String := String.mk (hexOfBytes (md5Digest (utf8Bytes s)))

/-- `generateHash` from the source: first 8 hex characters of the MD5 of
the file path.  `hash.substring(0, 8)` takes the first 8 UTF-16 units;
on the all-ASCII hex digest this is the first 8 characters. -/
def generateHash (filePath : String) : String :=
  String.mk ((md5Hex filePath).data.take 8)

/-! ### Filename parsing (`parseFileName`) -/

/-- Result record of `parseFileName`. -/
structure ParsedFile where
  order : Nat
  text : String
  hash : String
deriving DecidableEq, Repr

/-- Value of `parseInt(s, 10)` on an all-digit string. -/
def digitsToNat (l : List Char) : Nat := l.foldl (fun n c => 10 * n + (c.toNat - 48)) 0

/-- Characters that the regex `.` metacharacter does not match in JS
(line terminators). -/
def isLineTerm (c : Char) : Bool :=
  c == '\n' || c == '\r' || c == Char.ofNat 8232 || c == Char.ofNat 8233

/-- String suffix test (`file.endsWith(suf)`). -/
def strEndsWith (s suf : String) : Bool := suf.data.isSuffixOf s.data

/-- Embeds `parseFileName`: matches `^(\d+)\.(.+)\.md$` on the filename,
extracting `order` via `parseInt(·, 10)` and `text` as the (greedy) middle
group, and hashes the full path `dirPath/filename`.  A maximal digit run
is taken for `\d+`; backtracking to a shorter run can never succeed since
the following literal `.` is not a digit. -/
def parseFileName (filename dirPath : String) : Option ParsedFile :=
  let cs := filename.data
  let digits := cs.takeWhile Char.isDigit
  if digits.isEmpty then none
  else
    match cs.drop digits.length with
    | '.' :: tail =>
      if ['.', 'm', 'd'].isSuffixOf tail then
        let text := tail.take (tail.length - 3)
        if text.isEmpty then none
        else if text.any isLineTerm then none
        else some ⟨digitsToNat digits, String.mk text,
                   generateHash (dirPath ++ "/" ++ filename)⟩
      else none
    | _ => none

/-! ### Internal item records and the stable sort -/

/-- Element of the `items` array inside `generateSidebar`. -/
structure Item where
  order : Nat
  text : String
  filename : String
  hash : String
deriving DecidableEq, Repr

/-- Element of the `items` array inside `getFirstArticleLink` (that copy
of the loop does not keep `text`). -/
structure FItem where
  order : Nat
  filename : String
  hash : String
deriving DecidableEq, Repr

/-- Insert into a list sorted ascending by `order`, before the first
element of greater-or-equal `order` (stable). -/
def insertItem (x : Item) : List Item → List Item
  | [] => [x]
  | y :: ys => if x.order ≤ y.order then x :: y :: ys else y :: insertItem x ys

/-- Embeds `items.sort((a, b) => a.order - b.order)`: the JS sort is
stable (ES2019) and the comparator orders ascending by `order`; a stable
ascending sort is uniquely determined, and is realized here by stable
insertion sort. -/
def sortItems : List Item → List Item
  | [] => []
  | x :: xs => insertItem x (sortItems xs)

/-- Stable insertion for `FItem`, by `order`. -/
def insertFItem (x : FItem) : List FItem → List FItem
  | [] => [x]
  | y :: ys => if x.order ≤ y.order then x :: y :: ys else y :: insertFItem x ys

/-- The same stable ascending sort, for the `getFirstArticleLink` copy. -/
def sortFItems : List FItem → List FItem
  | [] => []
  | x :: xs => insertFItem x (sortFItems xs)

/-! ### Route prefixes and the module-level mapping state -/

/-- Splitting a character list at `'/'` (JS `split('/')`). -/
def splitSlash : List Char → List (List Char)
  | [] => [[]]
  | c :: cs =>
    match splitSlash cs with
    | [] => [[]]
    | g :: gs => if c = '/' then [] :: g :: gs else (c :: g) :: gs

/-- Joining with `'/'` (JS `join('/')`). -/
def joinSlash : List (List Char) → List Char
  | [] => []
  | [g] => g
  | g :: gs => g ++ '/' :: joinSlash gs

/-- Embeds `'/' + dirPath.split('/').slice(1).join('/')`. -/
def routePfx (dirPath : String) : String :=
  String.mk ('/' :: joinSlash ((splitSlash dirPath.data).drop 1))

/-- One navigation entry. -/
structure SidebarItem where
  text : String
  link : String
deriving DecidableEq, Repr

/-- One navigation group. -/
structure SidebarGroup where
  text : String
  items : List SidebarItem
deriving DecidableEq, Repr

/-- One record of the module-level `routeMappings` table. -/
structure RouteMapping where
  hash : String
  originalPath : String
  text : String
deriving DecidableEq, Repr

/-- The module-level `routeMappings : Record<string, RouteMapping[]>`,
as an association list in key-insertion order. -/
abbrev RouteMappings := List (String × List RouteMapping)

/-- Key-presence test on the record (keys are unique). -/
def hasKey : RouteMappings → String → Bool
  | [], _ => false
  | e :: es, k => e.1 = k || hasKey es k

/-- Embeds `if (!routeMappings[routePrefix]) routeMappings[routePrefix] = []`. -/
def initKey (st : RouteMappings) (k : String) : RouteMappings :=
  if hasKey st k then st else st ++ [(k, [])]

/-- Embeds `routeMappings[routePrefix].push(m)`: append `m` to the list
stored under the (unique) key; no-op if the key is absent
(`generateSidebar` always initializes the key first). -/
def pushMapping : RouteMappings → String → RouteMapping → RouteMappings
  | [], _, _ => []
  | e :: es, k, m => if e.1 = k then (e.1, e.2 ++ [m]) :: es else e :: pushMapping es k m

/-- Embeds `filename.replace(/\.md$/, '')`. -/
def stripMd (s : String) : String :=
  if strEndsWith s ".md" then String.mk (s.data.take (s.data.length - 3)) else s

/-! ### generateSidebar and getFirstArticleLink -/

/-- Warning text printed by `console.warn` for a missing directory
(`path.resolve` is abstracted to the directory path itself). -/
def warnMissing (dirPath : String) : String := "目录不存在: " ++ dirPath

/-- Result of one `generateSidebar` invocation: return value, the
`routeMappings` state after the call, and the `console.warn` output. -/
structure SidebarResult where
  groups : List SidebarGroup
  state : RouteMappings
  warnings : List String
deriving DecidableEq, Repr

/-- The filtered `items` loop of `generateSidebar`: skip `index.md`, keep
only `.md` files, keep only parseable names. -/
def collectItems (files : List String) (dirPath : String) : List Item :=
  files.filterMap (fun file =>
    if file = "index.md" then none
    else if strEndsWith file ".md" then
      (parseFileName file dirPath).map (fun p => ⟨p.order, p.text, file, p.hash⟩)
    else none)

/-- The `RouteMapping` pushed for one produced item:
`{hash, originalPath: filename.replace(/\.md$/, ''), text}`. -/
def mkMapping (it : Item) : RouteMapping := ⟨it.hash, stripMd it.filename, it.text⟩

/-- Embeds `generateSidebar(dirPath, groupText)`.  The filesystem `fsys`
maps a directory to its listing (`none` models `!fs.existsSync`).  The
module state is threaded explicitly; each produced item also pushes a
`RouteMapping` onto the state under the route prefix key. -/
def generateSidebar (fsys : String → Option (List String)) (dirPath groupText : String)
    (st : RouteMappings) : SidebarResult :=
  match fsys dirPath with
  | none => ⟨[], st, [warnMissing dirPath]⟩
  | some files =>
    let sorted := sortItems (collectItems files dirPath)
    let pfx := routePfx dirPath
    let st2 := sorted.foldl (fun s it => pushMapping s pfx (mkMapping it)) (initKey st pfx)
    ⟨[⟨groupText, sorted.map (fun it => ⟨it.text, pfx ++ "/" ++ it.hash⟩)⟩], st2, []⟩

/-- The filtered `items` loop of `getFirstArticleLink` (independent copy
of the scan in the source; it omits the `text` field). -/
def collectFItems (files : List String) (dirPath : String) : List FItem :=
  files.filterMap (fun file =>
    if file = "index.md" then none
    else if strEndsWith file ".md" then
      (parseFileName file dirPath).map (fun p => ⟨p.order, file, p.hash⟩)
    else none)

/-- Embeds `getFirstArticleLink(dirPath)`: the first article's
hash-based link, `"/"` if the directory is missing (plus a warning) or
holds no eligible file. -/
def getFirstArticleLink (fsys : String → Option (List String)) (dirPath : String) :
    String × List String :=
  match fsys dirPath with
  | none => ("/", [warnMissing dirPath])
  | some files =>
    let items := collectFItems files dirPath
    if items.isEmpty then ("/", [])
    else
      match sortFItems items with
      | [] => ("/", [])
      | first :: _ => (routePfx dirPath ++ "/" ++ first.hash, [])

/-! ### generateRewrites and the diagnostic tables -/

/-- Embeds `routePrefix.replace(/^\/|\/$/g, '')`: one leading and one
trailing slash removed. -/
def stripSlashes (s : String) : String :=
  let t := match s.data with
    | '/' :: rest => rest
    | l => l
  String.mk (match t.getLast? with
    | some '/' => t.dropLast
    | _ => t)

/-- JS object assignment `rewrites[k] = v`: overwrite in place if the key
exists, else append (string-key insertion order). -/
def recInsert (l : List (String × String)) (k v : String) : List (String × String) :=
  if l.any (fun e => e.1 = k) then l.map (fun e => if e.1 = k then (k, v) else e)
  else l ++ [(k, v)]

/-- Embeds `generateRewrites()`: for every stored mapping, add
`dirName/originalPath.md ↦ dirName/hash.md` to the rewrites record. -/
def generateRewrites (st : RouteMappings) : List (String × String) :=
  st.foldl (fun rw e =>
    e.2.foldl (fun rw2 m =>
      let dirName := stripSlashes e.1
      recInsert rw2 (dirName ++ "/" ++ m.originalPath ++ ".md")
        (dirName ++ "/" ++ m.hash ++ ".md")) rw) []

/-- The mapping list stored under a route-prefix key (`[]` if absent). -/
def mappingsOf : RouteMappings → String → List RouteMapping
  | [], _ => []
  | e :: es, k => if e.1 = k then e.2 else mappingsOf es k

/-- First mapping carrying a given identifier. -/
def findByHash : List RouteMapping → String → Option RouteMapping
  | [], _ => none
  | m :: ms, ident => if m.hash = ident then some m else findByHash ms ident

/-- Modelled from the spec: `reverseLookup(identifier) → {originalPath, label}`.
The reverse-lookup table itself is the `routeMappings` state kept by the
source (serialized by `saveRouteMappings`); the spec's lookup accessor is
not itself in the source, so looking up an identifier is modelled as
taking the first mapping with that identifier in the collection's table. -/
def reverseLookup (st : RouteMappings) (pfx ident : String) : Option RouteMapping :=
  findByHash (mappingsOf st pfx) ident

/-- One record of the debug dump written by `saveRouteMappings`. -/
structure MappingDump where
  hash : String
  file : String
  text : String
deriving DecidableEq, Repr

/-- The pure content of `saveRouteMappings`' debug dump
(`mappingsFormatted`). -/
def routeMappingsFormatted (st : RouteMappings) : List (String × List MappingDump) :=
  st.map (fun e => (e.1, e.2.map (fun m => ⟨m.hash, m.originalPath, m.text⟩)))

/-! ### Lemmas about the stable sort -/

lemma insertItem_cons_of_le {x y : Item} (ys : List Item) (h : x.order ≤ y.order) :
    insertItem x (y :: ys) = x :: y :: ys := by
  simp [insertItem, h]

lemma insertItem_cons_of_gt {x y : Item} (ys : List Item) (h : ¬ x.order ≤ y.order) :
    insertItem x (y :: ys) = y :: insertItem x ys := by
  simp [insertItem, h]

lemma mem_insertItem {z x : Item} : ∀ {l : List Item}, z ∈ insertItem x l → z = x ∨ z ∈ l := by
  intro l
  induction l with
  | nil => intro h; simpa [insertItem] using h
  | cons y ys ih =>
    intro h
    by_cases hxy : x.order ≤ y.order
    · rw [insertItem_cons_of_le ys hxy] at h
      simpa [or_assoc] using h
    · rw [insertItem_cons_of_gt ys hxy] at h
      rcases List.mem_cons.mp h with h' | h'
      · exact Or.inr (by simp [h'])
      · rcases ih h' with h'' | h''
        · exact Or.inl h''
        · exact Or.inr (by simp [h''])

lemma insertItem_pairwise {x : Item} {l : List Item}
    (h : l.Pairwise (fun a b => a.order ≤ b.order)) :
    (insertItem x l).Pairwise (fun a b => a.order ≤ b.order) := by
  induction l with
  | nil => simp [insertItem]
  | cons y ys ih =>
    rw [List.pairwise_cons] at h
    by_cases hxy : x.order ≤ y.order
    · rw [insertItem_cons_of_le ys hxy]
      rw [List.pairwise_cons, List.pairwise_cons]
      refine ⟨?_, h.1, h.2⟩
      intro z hz
      rcases List.mem_cons.mp hz with rfl | hz'
      · exact hxy
      · exact le_trans hxy (h.1 z hz')
    · rw [insertItem_cons_of_gt ys hxy, List.pairwise_cons]
      refine ⟨?_, ih h.2⟩
      intro z hz
      rcases mem_insertItem hz with rfl | hz'
      · exact le_of_not_le hxy
      · exact h.1 z hz'

lemma sortItems_pairwise (l : List Item) :
    (sortItems l).Pairwise (fun a b => a.order ≤ b.order) := by
  induction l with
  | nil => simp [sortItems]
  | cons x xs ih => exact insertItem_pairwise ih

lemma filter_insertItem (x : Item) (l : List Item) (k : Nat) :
    (insertItem x l).filter (fun it => it.order == k)
      = if x.order = k then x :: l.filter (fun it => it.order == k)
        else l.filter (fun it => it.order == k) := by
  induction l with
  | nil => by_cases hx : x.order = k <;> simp [insertItem, List.filter_cons, hx]
  | cons y ys ih =>
    by_cases hxy : x.order ≤ y.order
    · rw [insertItem_cons_of_le ys hxy]
      by_cases hx : x.order = k <;> by_cases hy : y.order = k <;>
        simp [List.filter_cons, hx, hy]
    · rw [insertItem_cons_of_gt ys hxy]
      have hyx : y.order < x.order := lt_of_not_le hxy
      by_cases hx : x.order = k
      · have hy : ¬ (y.order = k) := by omega
        simp [List.filter_cons, ih, hx, hy]
      · by_cases hy : y.order = k <;>
          simp [List.filter_cons, ih, hx, hy]

lemma sortItems_filter (l : List Item) (k : Nat) :
    (sortItems l).filter (fun it => it.order == k)
      = l.filter (fun it => it.order == k) := by
  induction l with
  | nil => rfl
  | cons x xs ih =>
    by_cases hx : x.order = k <;>
      simp [sortItems, filter_insertItem, List.filter_cons, hx, ih]

lemma insertItem_ne_nil (x : Item) (l : List Item) : insertItem x l ≠ [] := by
  cases l with
  | nil => simp [insertItem]
  | cons y ys =>
    by_cases hxy : x.order ≤ y.order <;> simp [insertItem, hxy]

lemma sortItems_eq_nil_iff (l : List Item) : sortItems l = [] ↔ l = [] := by
  cases l with
  | nil => simp [sortItems]
  | cons x xs =>
    simp only [sortItems]
    exact ⟨fun h => absurd h (insertItem_ne_nil x (sortItems xs)), fun h => by simp at h⟩

/-! ### Relating the two scan-sort pipelines -/

/-- Projection from `generateSidebar`'s item record to
`getFirstArticleLink`'s (dropping `text`). -/
def forget (it : Item) : FItem := ⟨it.order, it.filename, it.hash⟩

lemma forget_order (it : Item) : (forget it).order = it.order := rfl

lemma collectFItems_eq_map (files : List String) (dirPath : String) :
    collectFItems files dirPath = (collectItems files dirPath).map forget := by
  induction files with
  | nil => rfl
  | cons f fs ih =>
    simp only [collectItems, collectFItems, List.filterMap_cons] at ih ⊢
    by_cases h1 : f = "index.md"
    · simpa [h1] using ih
    · by_cases h2 : strEndsWith f ".md" = true
      · cases hp : parseFileName f dirPath <;> simp [h1, h2, hp, forget, ih]
      · simpa [h1, h2] using ih

lemma insertFItem_map_forget (x : Item) (l : List Item) :
    insertFItem (forget x) (l.map forget) = (insertItem x l).map forget := by
  induction l with
  | nil => rfl
  | cons y ys ih =>
    by_cases hxy : x.order ≤ y.order <;>
      simp [insertFItem, insertItem, forget_order, hxy, ih]

lemma sortFItems_map_forget (l : List Item) :
    sortFItems (l.map forget) = (sortItems l).map forget := by
  induction l with
  | nil => rfl
  | cons x xs ih => simp [sortFItems, sortItems, ih, insertFItem_map_forget]

/-! ### Lemmas about the mapping state -/

lemma hasKey_append_self (st : RouteMappings) (k : String) (ms : List RouteMapping) :
    hasKey (st ++ [(k, ms)]) k = true := by
  induction st with
  | nil => simp [hasKey]
  | cons e es ih => simp [hasKey, ih]

lemma hasKey_initKey (st : RouteMappings) (k : String) :
    hasKey (initKey st k) k = true := by
  unfold initKey
  by_cases h : hasKey st k = true
  · rwa [if_pos h]
  · rw [if_neg h]
    exact hasKey_append_self st k []

lemma mappingsOf_eq_nil_of_not_hasKey (st : RouteMappings) (k : String)
    (h : ¬ hasKey st k = true) : mappingsOf st k = [] := by
  induction st with
  | nil => rfl
  | cons e es ih =>
    by_cases he : e.1 = k
    · simp [hasKey, he] at h
    · have h' : ¬ hasKey es k = true := fun hh => h (by simp [hasKey, hh])
      simp [mappingsOf, he, ih h']

lemma mappingsOf_append_singleton (st : RouteMappings) (k : String) (ms : List RouteMapping)
    (h : ¬ hasKey st k = true) : mappingsOf (st ++ [(k, ms)]) k = ms := by
  induction st with
  | nil => simp [mappingsOf]
  | cons e es ih =>
    by_cases he : e.1 = k
    · simp [hasKey, he] at h
    · have h' : ¬ hasKey es k = true := fun hh => h (by simp [hasKey, hh])
      simp [mappingsOf, he, ih h']

lemma mappingsOf_initKey (st : RouteMappings) (k : String) :
    mappingsOf (initKey st k) k = mappingsOf st k := by
  unfold initKey
  by_cases h : hasKey st k = true
  · rw [if_pos h]
  · rw [if_neg h, mappingsOf_append_singleton st k [] h,
      mappingsOf_eq_nil_of_not_hasKey st k h]

lemma hasKey_pushMapping (st : RouteMappings) (k k' : String) (m : RouteMapping) :
    hasKey (pushMapping st k' m) k = hasKey st k := by
  induction st with
  | nil => rfl
  | cons e es ih =>
    by_cases h : e.1 = k' <;> simp [pushMapping, hasKey, h, ih]

lemma mappingsOf_pushMapping (st : RouteMappings) (k : String) (m : RouteMapping)
    (h : hasKey st k = true) :
    mappingsOf (pushMapping st k m) k = mappingsOf st k ++ [m] := by
  induction st with
  | nil => simp [hasKey] at h
  | cons e es ih =>
    by_cases he : e.1 = k
    · simp [pushMapping, mappingsOf, he]
    · have h' : hasKey es k = true := by simpa [hasKey, he] using h
      simp [pushMapping, mappingsOf, he, ih h']

lemma mappingsOf_foldPush (l : List Item) (st : RouteMappings) (k : String)
    (h : hasKey st k = true) :
    mappingsOf (l.foldl (fun s it => pushMapping s k (mkMapping it)) st) k
      = mappingsOf st k ++ l.map mkMapping := by
  induction l generalizing st with
  | nil => simp
  | cons x xs ih =>
    rw [List.foldl_cons, ih (pushMapping st k (mkMapping x)) (by rw [hasKey_pushMapping]; exact h),
      mappingsOf_pushMapping st k (mkMapping x) h]
    simp

/-- The mappings a single `generateSidebar` invocation appends under the
collection's route prefix. -/
def sidebarMappings (fsys : String → Option (List String)) (dirPath : String) :
    List RouteMapping :=
  match fsys dirPath with
  | none => []
  | some files => (sortItems (collectItems files dirPath)).map mkMapping

lemma generateSidebar_some (fsys : String → Option (List String))
    (files : List String) (dirPath groupText : String) (st : RouteMappings)
    (h : fsys dirPath = some files) :
    generateSidebar fsys dirPath groupText st =
      ⟨[⟨groupText, (sortItems (collectItems files dirPath)).map
          (fun it => ⟨it.text, routePfx dirPath ++ "/" ++ it.hash⟩)⟩],
        (sortItems (collectItems files dirPath)).foldl
          (fun s it => pushMapping s (routePfx dirPath) (mkMapping it))
          (initKey st (routePfx dirPath)),
        []⟩ := by
  unfold generateSidebar
  rw [h]

lemma generateSidebar_state_mappings (fsys : String → Option (List String))
    (dirPath groupText : String) (st : RouteMappings) :
    mappingsOf (generateSidebar fsys dirPath groupText st).state (routePfx dirPath)
      = mappingsOf st (routePfx dirPath) ++ sidebarMappings fsys dirPath := by
  cases hf : fsys dirPath with
  | none =>
    simp [generateSidebar, hf, sidebarMappings]
  | some files =>
    rw [generateSidebar_some fsys files dirPath groupText st hf]
    simp only [sidebarMappings, hf]
    rw [mappingsOf_foldPush _ _ _ (hasKey_initKey st (routePfx dirPath)),
      mappingsOf_initKey]

/-! ### Auxiliary length lemmas for the identifier -/

lemma hexOfBytes_length (l : List Nat) : (hexOfBytes l).length = 2 * l.length := by
  induction l with
  | nil => rfl
  | cons b bs ih => simp [hexOfBytes, ih]; ring

lemma md5Digest_length (msg : List Nat) : (md5Digest msg).length = 16 := by
  simp [md5Digest, le32]

/-! ### Claim theorems -/

/-- C5: identifier derivation is a deterministic pure function of the file
path: for every path, two calls of `generateHash` with the same input yield
identical output of fixed length 8 (being a pure Lean function, it depends
on no random seed, timestamp, or machine). -/
theorem c5_identifier_deterministic_fixed_length (p : String) :
    generateHash p = generateHash p ∧ (generateHash p).length = 8 := by
  refine ⟨rfl, ?_⟩
  have h32 : (hexOfBytes (md5Digest (utf8Bytes p))).length = 32 := by
    rw [hexOfBytes_length, md5Digest_length]
  show ((hexOfBytes (md5Digest (utf8Bytes p))).take 8).length = 8
  rw [List.length_take, h32]
  decide

/-- C8: if the collection root directory does not exist, `generateSidebar`
returns an empty result and `getFirstArticleLink` returns the root link,
both emitting a non-fatal warning; neither throws and the (modelled) build
continues. -/
theorem c8_missing_dir (fsys : String → Option (List String)) (dirPath groupText : String)
    (st : RouteMappings) (h : fsys dirPath = none) :
    generateSidebar fsys dirPath groupText st = ⟨[], st, [warnMissing dirPath]⟩
      ∧ getFirstArticleLink fsys dirPath = ("/", [warnMissing dirPath]) := by
  constructor
  · unfold generateSidebar; rw [h]
  · unfold getFirstArticleLink; rw [h]

theorem c8_missing_dir_witness :
    ((fun _ : String => (none : Option (List String))) "docs/interview" = none)
    ∧ generateSidebar (fun _ => none) "docs/interview" "面试题" []
        = ⟨[], [], [warnMissing "docs/interview"]⟩
    ∧ getFirstArticleLink (fun _ => none) "docs/interview"
        = ("/", [warnMissing "docs/interview"]) := by
  refine ⟨rfl, ?_, ?_⟩
  · exact (c8_missing_dir (fun _ => none) "docs/interview" "面试题" [] rfl).1
  · exact (c8_missing_dir (fun _ => none) "docs/interview" "面试题" [] rfl).2

/-- C7: when the collection contains no eligible entries, the navigation
items list of the produced group is empty and `getFirstArticleLink`
returns the fallback root link `"/"` rather than failing. -/
theorem c7_empty_collection (fsys : String → Option (List String)) (files : List String)
    (dirPath groupText : String) (st : RouteMappings)
    (h : fsys dirPath = some files) (hempty : collectItems files dirPath = []) :
    (generateSidebar fsys dirPath groupText st).groups = [⟨groupText, []⟩]
      ∧ (getFirstArticleLink fsys dirPath).1 = "/" := by
  constructor
  · rw [generateSidebar_some fsys files dirPath groupText st h, hempty]
    simp [sortItems]
  · simp [getFirstArticleLink, h, collectFItems_eq_map, hempty]

def fsC7 : String → Option (List String) :=
  fun d => if d = "docs/interview" then some ["index.md", "notes.txt", "README.md"] else none

theorem c7_empty_collection_witness :
    (fsC7 "docs/interview" = some ["index.md", "notes.txt", "README.md"])
    ∧ (collectItems ["index.md", "notes.txt", "README.md"] "docs/interview" = [])
    ∧ (generateSidebar fsC7 "docs/interview" "面试题" []).groups = [⟨"面试题", []⟩]
    ∧ (getFirstArticleLink fsC7 "docs/interview").1 = "/" := by
  refine ⟨rfl, by decide, ?_, ?_⟩
  · exact (c7_empty_collection fsC7 _ "docs/interview" "面试题" [] rfl (by decide)).1
  · exact (c7_empty_collection fsC7 _ "docs/interview" "面试题" [] rfl (by decide)).2

lemma collectItems_skip_index (l1 l2 : List String) (dirPath : String) :
    collectItems (l1 ++ "index.md" :: l2) dirPath = collectItems (l1 ++ l2) dirPath := by
  simp [collectItems, List.filterMap_append, List.filterMap_cons]

/-- C6: a file with the reserved basename `index.md` never contributes to
the produced navigation list nor to the first-article link: inserting
`index.md` anywhere in the directory listing leaves both outputs (and the
pushed mapping state) unchanged. -/
theorem c6_index_never_listed (dirPath groupText : String) (st : RouteMappings)
    (l1 l2 : List String) :
    generateSidebar (fun x => if x = dirPath then some (l1 ++ "index.md" :: l2) else none)
        dirPath groupText st
      = generateSidebar (fun x => if x = dirPath then some (l1 ++ l2) else none)
        dirPath groupText st
    ∧ getFirstArticleLink
        (fun x => if x = dirPath then some (l1 ++ "index.md" :: l2) else none) dirPath
      = getFirstArticleLink (fun x => if x = dirPath then some (l1 ++ l2) else none) dirPath := by
  have h1 : (fun x => if x = dirPath then some (l1 ++ "index.md" :: l2) else none) dirPath
      = some (l1 ++ "index.md" :: l2) := by simp
  have h2 : (fun x => if x = dirPath then some (l1 ++ l2) else none) dirPath
      = some (l1 ++ l2) := by simp
  constructor
  · rw [generateSidebar_some _ _ _ _ _ h1, generateSidebar_some _ _ _ _ _ h2,
      collectItems_skip_index]
  · simp [getFirstArticleLink, collectFItems_eq_map, collectItems_skip_index]

/-- C4: the produced entry sequence is sorted ascending by the numeric
value of the filename's integer prefix, and entries sharing an order value
keep their relative filesystem enumeration order (stable sort). -/
theorem c4_sorted_ascending_stable (fsys : String → Option (List String))
    (files : List String) (dirPath groupText : String) (st : RouteMappings)
    (h : fsys dirPath = some files) :
    (generateSidebar fsys dirPath groupText st).groups
      = [⟨groupText, (sortItems (collectItems files dirPath)).map
          (fun it => ⟨it.text, routePfx dirPath ++ "/" ++ it.hash⟩)⟩]
    ∧ (sortItems (collectItems files dirPath)).Pairwise (fun a b => a.order ≤ b.order)
    ∧ ∀ k, (sortItems (collectItems files dirPath)).filter (fun it => it.order == k)
        = (collectItems files dirPath).filter (fun it => it.order == k) := by
  refine ⟨?_, sortItems_pairwise _, fun k => sortItems_filter _ k⟩
  rw [generateSidebar_some fsys files dirPath groupText st h]

def fsC4 : String → Option (List String) :=
  fun d => if d = "docs/interview" then some ["10.Gamma.md", "2.Beta.md", "1.Alpha.md"] else none

theorem c4_sorted_ascending_stable_witness :
    (fsC4 "docs/interview" = some ["10.Gamma.md", "2.Beta.md", "1.Alpha.md"])
    ∧ (sortItems (collectItems ["10.Gamma.md", "2.Beta.md", "1.Alpha.md"] "docs/interview")).Pairwise
        (fun a b => a.order ≤ b.order)
    ∧ (sortItems (collectItems ["10.Gamma.md", "2.Beta.md", "1.Alpha.md"] "docs/interview")).map
        Item.order = [1, 2, 10] := by
  refine ⟨rfl, (c4_sorted_ascending_stable fsC4 _ "docs/interview" "面试题" [] rfl).2.1, by decide⟩

lemma forget_hash (it : Item) : (forget it).hash = it.hash := rfl

/-- C10: on an existing directory with at least one eligible file, the
first-article link computed by `getFirstArticleLink`'s own scan-parse-sort
pipeline equals the link of the first item of the group produced by
`generateSidebar`, for any group title and any prior mapping state. -/
theorem c10_first_link_refines (fsys : String → Option (List String))
    (files : List String) (dirPath groupText : String) (st : RouteMappings)
    (h : fsys dirPath = some files) (hne : collectItems files dirPath ≠ []) :
    ((generateSidebar fsys dirPath groupText st).groups.head?.bind
        (fun gr => gr.items.head?)).map (fun it => it.link)
      = some (getFirstArticleLink fsys dirPath).1 := by
  rw [generateSidebar_some fsys files dirPath groupText st h]
  obtain ⟨x, xs, hx⟩ : ∃ x xs, sortItems (collectItems files dirPath) = x :: xs := by
    rcases hs : sortItems (collectItems files dirPath) with _ | ⟨x, xs⟩
    · exact absurd ((sortItems_eq_nil_iff _).mp hs) hne
    · exact ⟨x, xs, rfl⟩
  have hni : ((collectItems files dirPath).map forget).isEmpty = false := by
    rcases hc : collectItems files dirPath with _ | ⟨y, ys⟩
    · exact absurd hc hne
    · rfl
  simp [getFirstArticleLink, h, collectFItems_eq_map, sortFItems_map_forget, hx, hni,
    forget_hash]

def fsC10 : String → Option (List String) :=
  fun d => if d = "docs/vue3-best-practices"
    then some ["index.md", "03.Vue 3 组件二次封装完整指南.md"] else none

theorem c10_first_link_refines_witness :
    (fsC10 "docs/vue3-best-practices" = some ["index.md", "03.Vue 3 组件二次封装完整指南.md"])
    ∧ (collectItems ["index.md", "03.Vue 3 组件二次封装完整指南.md"] "docs/vue3-best-practices" ≠ [])
    ∧ ((generateSidebar fsC10 "docs/vue3-best-practices" "Vue 3 组件封装最佳实践" []).groups.head?.bind
        (fun gr => gr.items.head?)).map (fun it => it.link)
      = some (getFirstArticleLink fsC10 "docs/vue3-best-practices").1 := by
  refine ⟨rfl, by decide, ?_⟩
  exact c10_first_link_refines fsC10 _ "docs/vue3-best-practices" "Vue 3 组件封装最佳实践" []
    rfl (by decide)

/-- C3 (amended): the route-mapping table is module-scoped shared state
that accumulates: invoking `generateSidebar` a second time with the same
directory appends the collection's mappings again, so the table then holds
every mapping of a single invocation twice (it is not rebuilt from
scratch). -/
theorem c3_second_invocation_doubles (fsys : String → Option (List String))
    (dirPath groupText : String) :
    mappingsOf (generateSidebar fsys dirPath groupText
        (generateSidebar fsys dirPath groupText []).state).state (routePfx dirPath)
      = sidebarMappings fsys dirPath ++ sidebarMappings fsys dirPath := by
  rw [generateSidebar_state_mappings, generateSidebar_state_mappings]
  simp [mappingsOf]

def fsC3 : String → Option (List String) :=
  fun d => if d = "docs/interview" then some ["1.C3.md"] else none

/-- C3 (counterexample): with one eligible file, invoking `generateSidebar`
a second time with the same directory does not leave the route-mapping
table (nor the debug dump) identical to a single invocation's result. -/
theorem c3_counterexample :
    ((generateSidebar fsC3 "docs/interview" "面试题"
        (generateSidebar fsC3 "docs/interview" "面试题" []).state).state
      ≠ (generateSidebar fsC3 "docs/interview" "面试题" []).state)
    ∧ (routeMappingsFormatted (generateSidebar fsC3 "docs/interview" "面试题"
        (generateSidebar fsC3 "docs/interview" "面试题" []).state).state
      ≠ routeMappingsFormatted (generateSidebar fsC3 "docs/interview" "面试题" []).state) := by
  refine ⟨by decide, by decide⟩

/-- Directory listing with two distinct eligible filenames whose full
paths share the same truncated-MD5 identifier `4488c8ee`. -/
def collisionFS : String → Option (List String) :=
  fun d => if d = "docs/interview" then some ["1.a4170.md", "1.a48456.md"] else none

/-- C1: evaluating the pipeline at two distinct source paths that produce
the same identifier: the mapping and rewrite table are built without any
failure or warning, and both original paths are silently rewritten to the
same identifier-based public path — no collision error is raised anywhere
(the model is total and has no failure channel because the source has
none). -/
theorem c1_collision_not_detected :
    (generateHash "docs/interview/1.a4170.md" = generateHash "docs/interview/1.a48456.md")
    ∧ ("1.a4170.md" : String) ≠ "1.a48456.md"
    ∧ (generateSidebar collisionFS "docs/interview" "面试题" []).warnings = []
    ∧ generateRewrites (generateSidebar collisionFS "docs/interview" "面试题" []).state
        = [("interview/1.a4170.md", "interview/4488c8ee.md"),
           ("interview/1.a48456.md", "interview/4488c8ee.md")] := by
  refine ⟨by decide, by decide, by decide, by decide⟩

/-- C2 (counterexample): two eligible filenames in the same collection
directory differing only in the numeric prefix and the label body
(`1.Alpha.md` vs `3.Alpha Renamed.md`) receive different identifiers, so
renumbering/relabeling does change the public identifier. -/
theorem c2_counterexample :
    ((parseFileName "1.Alpha.md" "docs/interview").map ParsedFile.hash = some "4d6ac02c")
    ∧ ((parseFileName "3.Alpha Renamed.md" "docs/interview").map ParsedFile.hash
        = some "f2f1acfb")
    ∧ ("4d6ac02c" : String) ≠ "f2f1acfb" := by
  refine ⟨by decide, by decide, by decide⟩

/-- C2 (amended): the identifier of an eligible file is derived from the
full path `dirPath/filename`, whose filename component contains the
numeric prefix and the label; hence the identifier is stable exactly under
preservation of that full path, and changing prefix or label changes the
hashed input. -/
theorem c2_identifier_hashes_full_path (filename dirPath : String) (p : ParsedFile)
    (h : parseFileName filename dirPath = some p) :
    p.hash = generateHash (dirPath ++ "/" ++ filename) := by
  simp only [parseFileName] at h
  split at h
  · simp at h
  · split at h
    · split at h
      · split at h
        · simp at h
        · split at h
          · simp at h
          · rw [← Option.some.inj h]
      · simp at h
    · simp at h

theorem c2_identifier_hashes_full_path_witness :
    (parseFileName "1.Alpha.md" "docs/interview"
        = some ⟨1, "Alpha", generateHash "docs/interview/1.Alpha.md"⟩)
    ∧ (⟨1, "Alpha", generateHash "docs/interview/1.Alpha.md"⟩ : ParsedFile).hash
        = generateHash ("docs/interview" ++ "/" ++ "1.Alpha.md") := by
  refine ⟨by decide, c2_identifier_hashes_full_path "1.Alpha.md" "docs/interview" _ (by decide)⟩

lemma findByHash_of_nodup (ms : List RouteMapping) (m : RouteMapping)
    (hm : m ∈ ms) (hnd : (ms.map RouteMapping.hash).Nodup) :
    findByHash ms m.hash = some m := by
  induction ms with
  | nil => simp at hm
  | cons a ms ih =>
    rcases List.mem_cons.mp hm with rfl | hm'
    · simp [findByHash]
    · have hne : ¬ a.hash = m.hash := by
        intro he
        have hmem : m.hash ∈ ms.map RouteMapping.hash :=
          List.mem_map_of_mem RouteMapping.hash hm'
        rw [List.map_cons, List.nodup_cons] at hnd
        exact hnd.1 (he ▸ hmem)
      have hnd' : (ms.map RouteMapping.hash).Nodup := by
        rw [List.map_cons, List.nodup_cons] at hnd
        exact hnd.2
      simp [findByHash, hne, ih hm' hnd']

/-- C9 (amended): the round trip holds in the absence of identifier
collisions: if the mapping produced for an entry is in the collection's
table and no two mappings of that table share an identifier, then looking
up the entry's identifier yields that entry's originalPath (its filename
without extension) and its label. -/
theorem c9_roundtrip_without_collision (fsys : String → Option (List String))
    (dirPath groupText : String) (it : Item)
    (hit : mkMapping it ∈
      mappingsOf (generateSidebar fsys dirPath groupText []).state (routePfx dirPath))
    (hnd : ((mappingsOf (generateSidebar fsys dirPath groupText []).state
        (routePfx dirPath)).map RouteMapping.hash).Nodup) :
    (reverseLookup (generateSidebar fsys dirPath groupText []).state (routePfx dirPath)
        it.hash).map (fun m => (m.originalPath, m.text))
      = some (stripMd it.filename, it.text) := by
  have h1 := findByHash_of_nodup _ _ hit hnd
  unfold reverseLookup
  rw [show it.hash = (mkMapping it).hash from rfl, h1]
  rfl

def fsC9 : String → Option (List String) :=
  fun d => if d = "docs/interview" then some ["1.A.md"] else none

theorem c9_roundtrip_without_collision_witness :
    (mkMapping ⟨1, "A", "1.A.md", "1e9d4195"⟩
        ∈ mappingsOf (generateSidebar fsC9 "docs/interview" "面试题" []).state
            (routePfx "docs/interview"))
    ∧ (reverseLookup (generateSidebar fsC9 "docs/interview" "面试题" []).state
          (routePfx "docs/interview") (⟨1, "A", "1.A.md", "1e9d4195"⟩ : Item).hash).map
        (fun m => (m.originalPath, m.text))
      = some (stripMd "1.A.md", "A") := by
  refine ⟨by decide, ?_⟩
  exact c9_roundtrip_without_collision fsC9 "docs/interview" "面试题"
    ⟨1, "A", "1.A.md", "1e9d4195"⟩ (by decide) (by decide)

/-- C9 (counterexample): under the identifier collision `4488c8ee`, the
mapping produced for the entry `1.a48456.md` is in the table, but reverse
lookup of its identifier returns the other entry's `originalPath`
(`1.a4170`), so the round trip fails for it. -/
theorem c9_counterexample :
    (mkMapping ⟨1, "a48456", "1.a48456.md", "4488c8ee"⟩
        ∈ mappingsOf (generateSidebar collisionFS "docs/interview" "面试题" []).state
            (routePfx "docs/interview"))
    ∧ (reverseLookup (generateSidebar collisionFS "docs/interview" "面试题" []).state
          (routePfx "docs/interview") "4488c8ee").map (fun m => m.originalPath)
        = some "1.a4170"
    ∧ ("1.a4170" : String) ≠ "1.a48456" := by
  refine ⟨by decide, by decide, by decide⟩

end GenSidebar
